import Mathlib

/-!
Shallow embedding of the schwab_app trading core:
src/schwab_app/strategies/dca.py, src/schwab_app/strategies/rebalance.py,
src/schwab_app/strategies/opportunistic.py, src/schwab_app/utils/validation.py,
src/schwab_app/utils/audit_logger.py, src/schwab_app/utils/token_encryption.py.

Modelling conventions:
- Python floats are modelled as exact rationals (ℚ).
- Python `int(x)` (truncation toward zero) is `pyInt`.
- Python exceptions are modelled with `Except`.  Calls into the Schwab
  gateway (`SchwabClient`) return `Except String _`; strategy code uses the
  error type `AppErr`, which separates the `ValueError("Invalid price for
  {symbol}")` raised by the strategies themselves from arbitrary exceptions
  propagated out of the gateway.
- The gateway returns dict-shaped data read through `.get(key, default)`
  chains; those dicts are modelled as structures of `Option` fields, and the
  `.get` default is applied with `Option.getD` at the call site, mirroring
  the source line by line.
-/

attribute [local semireducible] Rat.mul Rat.add Rat.sub Rat.inv Rat.ofScientific

deriving instance DecidableEq for Except

/-- Python `int(x)` on a float modelled as an exact rational: truncation
toward zero, i.e. T-division of the numerator by the (positive) denominator. -/
def pyInt (q : ℚ) : ℤ := Int.tdiv q.num q.den

/-- Error type for exceptions inside strategy code. -/
inductive AppErr where
  | invalidPrice (symbol : String)
  | gatewayErr (msg : String)
deriving DecidableEq, Repr

/-- Python `str(e)` of an exception: the invalid-price `ValueError` carries
the message `f"Invalid price for {symbol}"`. -/
def AppErr.toMessage : AppErr → String
  | .invalidPrice s => "Invalid price for " ++ s
  | .gatewayErr m => m

/-- The quote dict `quote_data.get(symbol, {}).get("quote", {})`: fields
`lastPrice`, `openPrice`, `52WkHigh`, each read with default 0. -/
structure Quote where
  lastPrice? : Option ℚ := none
  openPrice? : Option ℚ := none
  wk52High? : Option ℚ := none
deriving DecidableEq, Repr

/-- The balances dict; `liquidationValue` is read with `.get(_, 0)`. -/
structure Balances where
  liquidationValue? : Option ℚ := none
deriving DecidableEq, Repr

/-- One position dict.  The source reads
`position.get("instrument", {}).get("symbol", "")` and
`position.get("marketValue", 0)`; a missing field yields exactly the
sentinel `""` resp. `0`, so the defaults are folded into the fields. -/
structure Position where
  symbol : String
  marketValue : ℚ
deriving DecidableEq, Repr

/-- One entry of `orderLegCollection` (the nested `instrument` dict is
flattened into its two fields). -/
structure OrderLeg where
  instruction : String
  quantity : ℤ
  symbol : String
  assetType : String
deriving DecidableEq, Repr

/-- The order dict built by the strategies. -/
structure OrderSpec where
  orderType : String
  session : String
  duration : String
  orderStrategyType : String
  orderLegCollection : List OrderLeg
deriving DecidableEq, Repr

/-- The dict returned by `place_order`; `order_id` is read with `.get`. -/
structure OrderResp where
  order_id? : Option String := none
deriving DecidableEq, Repr

/-- The Schwab gateway (external collaborator, spec section 6), as pure
functions that either return data or raise. -/
structure Client where
  get_quote : String → Except String Quote
  get_positions : String → Except String (List Position)
  get_account_balances : String → Except String Balances
  place_order : String → OrderSpec → Except String OrderResp

/-- Lift a gateway exception into strategy-level error handling. -/
def liftG : Except String α → Except AppErr α := Except.mapError AppErr.gatewayErr

/-- The result dicts returned by the strategies (one structure of optional
fields covers every shape of dict the source returns). -/
structure TradeResult where
  symbol : String
  status : String
  reason : Option String := none
  action : Option String := none
  shares : Option ℤ := none
  price : Option ℚ := none
  amount : Option ℚ := none
  value : Option ℚ := none
  dip : Option ℚ := none
  order_id : Option (Option String) := none
  error : Option String := none
deriving DecidableEq, Repr

/-- The market-order dict shared by all three strategies. -/
def mkMarketOrder (instruction : String) (quantity : ℤ) (symbol : String) : OrderSpec :=
  { orderType := "MARKET", session := "NORMAL", duration := "DAY",
    orderStrategyType := "SINGLE",
    orderLegCollection := [{ instruction := instruction, quantity := quantity,
                             symbol := symbol, assetType := "EQUITY" }] }

/-- `DCAStrategy._invest_in_symbol` (dca.py lines 62-134). -/
def DCA.invest_in_symbol (c : Client) (account_number symbol : String)
    (amount : ℚ) (dry_run : Bool) : Except AppErr TradeResult := do
  let quote ← liftG (c.get_quote symbol)
  let last_price := quote.lastPrice?.getD 0
  if last_price = 0 then throw (.invalidPrice symbol)
  else
    let shares := pyInt (amount / last_price)
    if shares = 0 then
      return { symbol := symbol, status := "skipped", reason := some "amount too small",
               amount := some amount, price := some last_price }
    else if dry_run then
      return { symbol := symbol, status := "dry_run", shares := some shares,
               price := some last_price, amount := some (shares * last_price) }
    else do
      let order_result ← liftG (c.place_order account_number (mkMarketOrder "BUY" shares symbol))
      return { symbol := symbol, status := "success", shares := some shares,
               price := some last_price, amount := some (shares * last_price),
               order_id := some order_result.order_id? }

/-- `DCAStrategy.execute` (dca.py lines 26-60): split the total equally,
then process each symbol independently, catching per-symbol exceptions. -/
def DCA.execute (c : Client) (account_number : String) (symbols : List String)
    (total_amount : ℚ) (dry_run : Bool) : List TradeResult :=
  if symbols = [] then []
  else
    let amount_per_symbol := total_amount / (symbols.length : ℚ)
    symbols.map fun s =>
      match DCA.invest_in_symbol c account_number s amount_per_symbol dry_run with
      | .ok r => r
      | .error e => { symbol := s, status := "failed", error := some e.toMessage }

/-- Dict lookup with default (`current.get(symbol, 0)`) on an association
list modelling a Python dict. -/
def dictGet (d : List (String × ℚ)) (k : String) (default : ℚ) : ℚ :=
  match d.find? (fun p => p.1 = k) with
  | some p => p.2
  | none => default

/-- Dict assignment `d[k] = v` on an association list: overwrite in place if
the key exists, else append (Python dict insertion order). -/
def dictSet (d : List (String × ℚ)) (k : String) (v : ℚ) : List (String × ℚ) :=
  match d with
  | [] => [(k, v)]
  | (k2, v2) :: rest => if k2 = k then (k, v) :: rest else (k2, v2) :: dictSet rest k v

/-- `RebalanceStrategy._calculate_current_allocation` (rebalance.py 72-103). -/
def Rebalance.calculate_current_allocation (positions : List Position)
    (balances : Balances) : List (String × ℚ) :=
  let total_value := balances.liquidationValue?.getD 0
  if total_value = 0 then []
  else
    positions.foldl
      (fun allocation position =>
        if position.symbol ≠ "" ∧ position.marketValue > 0 then
          dictSet allocation position.symbol (position.marketValue / total_value)
        else allocation)
      []

/-- One rebalancing action dict (rebalance.py 130-136). -/
structure RebalanceAction where
  symbol : String
  current_allocation : ℚ
  target_allocation : ℚ
  deviation : ℚ
  action : String
deriving DecidableEq, Repr

/-- `RebalanceStrategy._calculate_rebalancing_actions` (rebalance.py 105-143). -/
def Rebalance.calculate_rebalancing_actions (current : List (String × ℚ))
    (target : List (String × ℚ)) (threshold : ℚ) : List RebalanceAction :=
  match target with
  | [] => []
  | (symbol, target_pct) :: rest =>
    let current_pct := dictGet current symbol 0
    let deviation := |current_pct - target_pct|
    (if deviation > threshold then
      [{ symbol := symbol, current_allocation := current_pct,
         target_allocation := target_pct, deviation := deviation,
         action := if target_pct > current_pct then "buy" else "sell" }]
     else []) ++ Rebalance.calculate_rebalancing_actions current rest threshold

/-- `RebalanceStrategy._execute_trade` (rebalance.py 194-274). -/
def Rebalance.execute_trade (c : Client) (account_number symbol action : String)
    (value : ℚ) (dry_run : Bool) : Except AppErr TradeResult := do
  let quote ← liftG (c.get_quote symbol)
  let last_price := quote.lastPrice?.getD 0
  if last_price = 0 then throw (.invalidPrice symbol)
  else
    let shares := pyInt (value / last_price)
    if shares = 0 then
      return { symbol := symbol, status := "skipped", reason := some "value too small",
               action := some action, value := some value }
    else if dry_run then
      return { symbol := symbol, status := "dry_run", action := some action,
               shares := some shares, price := some last_price,
               value := some (shares * last_price) }
    else do
      let order_result ← liftG (c.place_order account_number
        (mkMarketOrder (if action = "buy" then "BUY" else "SELL") shares symbol))
      return { symbol := symbol, status := "success", action := some action,
               shares := some shares, price := some last_price,
               value := some (shares * last_price),
               order_id := some order_result.order_id? }

/-- `RebalanceStrategy._execute_rebalancing` (rebalance.py 145-192): refetch
balances, size each trade from the fresh liquidation value, and catch
per-symbol failures. -/
def Rebalance.execute_rebalancing (c : Client) (account_number : String)
    (actions : List RebalanceAction) (dry_run : Bool) :
    Except AppErr (List TradeResult) := do
  let balances ← liftG (c.get_account_balances account_number)
  let total_value := balances.liquidationValue?.getD 0
  return actions.map fun action =>
    let trade_value := |total_value * action.target_allocation -
                        total_value * action.current_allocation|
    match Rebalance.execute_trade c account_number action.symbol action.action
        trade_value dry_run with
    | .ok r => r
    | .error e => { symbol := action.symbol, status := "failed",
                    error := some e.toMessage }

/-- `RebalanceStrategy.execute` (rebalance.py 25-70). -/
def Rebalance.execute (c : Client) (account_number : String)
    (target_allocation : List (String × ℚ)) (threshold : ℚ) (dry_run : Bool) :
    Except AppErr (List TradeResult) := do
  let positions ← liftG (c.get_positions account_number)
  let balances ← liftG (c.get_account_balances account_number)
  let current_allocation := Rebalance.calculate_current_allocation positions balances
  let actions := Rebalance.calculate_rebalancing_actions current_allocation
    target_allocation threshold
  if actions = [] then return []
  else Rebalance.execute_rebalancing c account_number actions dry_run

/-- `OpportunisticStrategy._execute_opportunistic_buy` (opportunistic.py 133-211). -/
def Opportunistic.execute_opportunistic_buy (c : Client)
    (account_number symbol : String) (price amount dip_percentage : ℚ)
    (dry_run : Bool) : Except AppErr TradeResult := do
  let shares := pyInt (amount / price)
  if shares = 0 then
    return { symbol := symbol, status := "skipped", reason := some "amount too small",
             amount := some amount, price := some price, dip := some dip_percentage }
  else if dry_run then
    return { symbol := symbol, status := "dry_run", shares := some shares,
             price := some price, amount := some (shares * price),
             dip := some dip_percentage }
  else do
    let order_result ← liftG (c.place_order account_number (mkMarketOrder "BUY" shares symbol))
    return { symbol := symbol, status := "success", shares := some shares,
             price := some price, amount := some (shares * price),
             dip := some dip_percentage, order_id := some order_result.order_id? }

/-- `OpportunisticStrategy._check_symbol_for_dip` (opportunistic.py 65-131).
Returns `none` where the Python returns `None` (bad data or no dip). -/
def Opportunistic.check_symbol_for_dip (c : Client) (account_number symbol : String)
    (dip_threshold buy_amount : ℚ) (dry_run : Bool) :
    Except AppErr (Option TradeResult) := do
  let quote ← liftG (c.get_quote symbol)
  let last_price := quote.lastPrice?.getD 0
  let open_price := quote.openPrice?.getD 0
  let high_52_week := quote.wk52High?.getD 0
  if last_price = 0 ∨ high_52_week = 0 then return none
  else
    let dip_from_high := (high_52_week - last_price) / high_52_week
    let intraday_change := if open_price > 0 then (last_price - open_price) / open_price else 0
    let is_dip := dip_from_high ≥ dip_threshold ∨
      (intraday_change < 0 ∧ |intraday_change| ≥ dip_threshold)
    if ¬ is_dip then return none
    else do
      let r ← Opportunistic.execute_opportunistic_buy c account_number symbol
        last_price buy_amount dip_from_high dry_run
      return some r

/-! ### Small `Except` reduction lemmas used to unfold the monadic strategy code -/

theorem ok_bind {ε α β : Type} (a : α) (f : α → Except ε β) :
    (Except.ok a : Except ε α) >>= f = f a := rfl

theorem error_bind {ε α β : Type} (e : ε) (f : α → Except ε β) :
    (Except.error e : Except ε α) >>= f = .error e := rfl

theorem throw_eq {ε α : Type} (e : ε) : (throw e : Except ε α) = .error e := rfl

theorem pure_eq {ε α : Type} (a : α) : (pure a : Except ε α) = .ok a := rfl

theorem liftG_ok {α : Type} (a : α) : liftG (.ok a : Except String α) = .ok a := rfl

theorem liftG_error {α : Type} (m : String) :
    liftG (.error m : Except String α) = (.error (.gatewayErr m) : Except AppErr α) := rfl

/-! ### C2: which rebalancing actions are emitted -/

theorem calc_actions_mem (current : List (String × ℚ)) (threshold : ℚ)
    (target : List (String × ℚ)) (a : RebalanceAction) :
    a ∈ Rebalance.calculate_rebalancing_actions current target threshold ↔
    ∃ s w, (s, w) ∈ target ∧ |dictGet current s 0 - w| > threshold ∧
      a = { symbol := s, current_allocation := dictGet current s 0,
            target_allocation := w, deviation := |dictGet current s 0 - w|,
            action := if w > dictGet current s 0 then "buy" else "sell" } := by
  induction target with
  | nil => simp [Rebalance.calculate_rebalancing_actions]
  | cons p rest ih =>
    obtain ⟨s0, w0⟩ := p
    by_cases hdev : |dictGet current s0 0 - w0| > threshold
    · simp only [Rebalance.calculate_rebalancing_actions, if_pos hdev, List.mem_append,
        List.mem_cons, List.not_mem_nil, or_false, ih]
      constructor
      · rintro (rfl | ⟨s, w, hm, hgt, rfl⟩)
        · exact ⟨s0, w0, Or.inl rfl, hdev, rfl⟩
        · exact ⟨s, w, Or.inr hm, hgt, rfl⟩
      · rintro ⟨s, w, (heq | hm), hgt, rfl⟩
        · obtain ⟨rfl, rfl⟩ := Prod.mk.inj heq
          exact Or.inl rfl
        · exact Or.inr ⟨s, w, hm, hgt, rfl⟩
    · simp only [Rebalance.calculate_rebalancing_actions, if_neg hdev, List.nil_append,
        ih, List.mem_cons]
      constructor
      · rintro ⟨s, w, hm, hgt, rfl⟩
        exact ⟨s, w, Or.inr hm, hgt, rfl⟩
      · rintro ⟨s, w, (heq | hm), hgt, rfl⟩
        · obtain ⟨rfl, rfl⟩ := Prod.mk.inj heq
          exact absurd hgt hdev
        · exact ⟨s, w, hm, hgt, rfl⟩

/-- In an association list whose keys are `Nodup` (a Python dict), a key
determines its value. -/
theorem nodup_keys_value {l : List (String × ℚ)} (hl : (l.map Prod.fst).Nodup)
    {s : String} {w w2 : ℚ} (h1 : (s, w) ∈ l) (h2 : (s, w2) ∈ l) : w = w2 := by
  induction l with
  | nil => cases h1
  | cons p rest ih =>
    simp only [List.map_cons, List.nodup_cons] at hl
    rcases List.mem_cons.mp h1 with he1 | he1 <;> rcases List.mem_cons.mp h2 with he2 | he2
    · rw [← he1] at he2
      exact ((Prod.mk.inj he2).2).symm
    · exfalso
      exact hl.1 (List.mem_map.mpr ⟨(s, w2), he2, by rw [← he1]⟩)
    · exfalso
      exact hl.1 (List.mem_map.mpr ⟨(s, w), he1, by rw [← he2]⟩)
    · exact ih hl.2 he1 he2

theorem buy_iff_gt (w cpct : ℚ) :
    ((if w > cpct then "buy" else "sell") : String) = "buy" ↔ w > cpct := by
  by_cases hb : w > cpct
  · simp [hb]
  · simp [hb]

/-- C2: an action is emitted for a symbol iff the symbol is in the target
allocation and `|current.get(symbol, 0) - target_weight| > threshold`; the
direction is `buy` iff `target_weight > current_weight`; symbols held but
absent from the target never produce an action. -/
theorem c2_actions_characterization (current target : List (String × ℚ))
    (threshold : ℚ) (hnd : (target.map Prod.fst).Nodup) :
    (∀ s w, (s, w) ∈ target →
      ((∃ a ∈ Rebalance.calculate_rebalancing_actions current target threshold,
          a.symbol = s) ↔ |dictGet current s 0 - w| > threshold)
      ∧ ∀ a ∈ Rebalance.calculate_rebalancing_actions current target threshold,
          a.symbol = s → (a.action = "buy" ↔ w > dictGet current s 0))
    ∧ ∀ a ∈ Rebalance.calculate_rebalancing_actions current target threshold,
        a.symbol ∈ target.map Prod.fst := by
  refine ⟨fun s w hmem => ⟨⟨?_, ?_⟩, ?_⟩, ?_⟩
  · rintro ⟨a, ha, hsym⟩
    obtain ⟨s2, w2, hm2, hgt2, rfl⟩ := (calc_actions_mem current threshold target a).mp ha
    obtain rfl : s2 = s := hsym
    obtain rfl : w2 = w := nodup_keys_value hnd hm2 hmem
    exact hgt2
  · intro hgt
    exact ⟨_, (calc_actions_mem current threshold target _).mpr ⟨s, w, hmem, hgt, rfl⟩, rfl⟩
  · intro a ha hsym
    obtain ⟨s2, w2, hm2, hgt2, rfl⟩ := (calc_actions_mem current threshold target a).mp ha
    have hs2 : s2 = s := hsym
    have hw2 : w2 = w := nodup_keys_value hnd (hs2 ▸ hm2) hmem
    show (if w2 > dictGet current s2 0 then "buy" else "sell") = "buy" ↔ w > dictGet current s 0
    rw [hs2, hw2]
    exact buy_iff_gt w (dictGet current s 0)
  · intro a ha
    obtain ⟨s2, w2, hm2, _, rfl⟩ := (calc_actions_mem current threshold target a).mp ha
    exact List.mem_map.mpr ⟨(s2, w2), hm2, rfl⟩

theorem pyInt_zero : pyInt 0 = 0 := rfl

/-- `_execute_trade` with a zero dollar value, wrapped in the per-symbol
try/except of `_execute_rebalancing`, yields a skipped or failed result. -/
theorem execute_trade_zero_status (c : Client) (acct sym act : String) (dry : Bool) :
    (match Rebalance.execute_trade c acct sym act 0 dry with
      | .ok r => r
      | .error e => { symbol := sym, status := "failed",
                      error := some e.toMessage }).status = "skipped" ∨
    (match Rebalance.execute_trade c acct sym act 0 dry with
      | .ok r => r
      | .error e => { symbol := sym, status := "failed",
                      error := some e.toMessage }).status = "failed" := by
  cases hq : c.get_quote sym with
  | error m =>
    right
    simp [Rebalance.execute_trade, hq, liftG_error, error_bind]
  | ok q =>
    by_cases hl : q.lastPrice?.getD 0 = 0
    · right
      simp [Rebalance.execute_trade, hq, liftG_ok, ok_bind, hl, throw_eq]
    · left
      simp [Rebalance.execute_trade, hq, liftG_ok, ok_bind, hl, zero_div, pyInt_zero, pure_eq]

/-- C1 (amended): with `liquidation_value == 0` the computed current
allocation is empty and no exception escapes, but the engine still emits an
action for every target symbol whose deviation (= its target weight, since
current defaults to 0) exceeds the threshold; each such trade has dollar
value 0 and comes back `skipped` (or `failed` if the quote is bad), so the
result list is empty only when every target deviation is below threshold. -/
theorem c1_amended (c : Client) (account : String) (target : List (String × ℚ))
    (threshold : ℚ) (dry_run : Bool) (ps : List Position) (bal : Balances)
    (hp : c.get_positions account = .ok ps)
    (hb : c.get_account_balances account = .ok bal)
    (h0 : bal.liquidationValue?.getD 0 = 0) :
    Rebalance.calculate_current_allocation ps bal = []
    ∧ ∃ rs, Rebalance.execute c account target threshold dry_run = .ok rs
        ∧ rs.length = (Rebalance.calculate_rebalancing_actions [] target threshold).length
        ∧ ∀ r ∈ rs, r.status = "skipped" ∨ r.status = "failed" := by
  have hcur : Rebalance.calculate_current_allocation ps bal = [] := by
    simp [Rebalance.calculate_current_allocation, h0]
  refine ⟨hcur, ?_⟩
  by_cases hact : Rebalance.calculate_rebalancing_actions [] target threshold = []
  · refine ⟨[], ?_, by simp [hact], by simp⟩
    simp [Rebalance.execute, hp, hb, liftG_ok, ok_bind, hcur, hact, pure_eq]
  · refine ⟨(Rebalance.calculate_rebalancing_actions [] target threshold).map
      (fun action =>
        match Rebalance.execute_trade c account action.symbol action.action 0 dry_run with
        | .ok r => r
        | .error e => { symbol := action.symbol, status := "failed",
                        error := some e.toMessage }), ?_, by simp, ?_⟩
    · have hexec : Rebalance.execute c account target threshold dry_run =
          Rebalance.execute_rebalancing c account
            (Rebalance.calculate_rebalancing_actions [] target threshold) dry_run := by
        simp [Rebalance.execute, hp, hb, liftG_ok, ok_bind, hcur, hact]
      rw [hexec]
      simp only [Rebalance.execute_rebalancing, hb, liftG_ok, ok_bind, pure_eq, h0]
      refine congrArg Except.ok ?_
      refine List.map_congr_left fun action _ => ?_
      have hv : |(0 : ℚ) * action.target_allocation - 0 * action.current_allocation| = 0 := by
        simp
      rw [hv]
    · intro r hr
      obtain ⟨action, _, rfl⟩ := List.mem_map.mp hr
      exact execute_trade_zero_status c account action.symbol action.action dry_run

theorem bind_pure_some (e : Except AppErr TradeResult) :
    (e >>= fun r => pure (some r)) = Except.map some e := by
  cases e <;> rfl

theorem map_some_ne_ok_none (e : Except AppErr TradeResult) :
    Except.map some e ≠ .ok none := by
  cases e <;> simp [Except.map]

theorem bind_place_ne_invalid (e : Except String OrderResp) (f : OrderResp → TradeResult)
    (s : String) :
    (liftG e >>= fun o => pure (f o) : Except AppErr TradeResult) ≠
      .error (.invalidPrice s) := by
  cases e <;> simp [liftG_ok, liftG_error, ok_bind, error_bind, pure_eq]

/-- For a nonnegative rational, Python truncation agrees with the floor. -/
theorem pyInt_eq_floor_of_nonneg {x : ℚ} (hx : 0 ≤ x) : pyInt x = ⌊x⌋ := by
  unfold pyInt
  rw [Int.tdiv_eq_ediv (Rat.num_nonneg.mpr hx) (Int.ofNat_nonneg _)]
  exact Rat.floor_def.symm

/-- C3 (amended): the execution primitive fails with the invalid-price
`ValueError` iff the fetched quote price is exactly 0 (the source checks
`last_price == 0`, not `<= 0`), in both `DCAStrategy._invest_in_symbol`
and `RebalanceStrategy._execute_trade`. -/
theorem c3_amended (c : Client) (acct s act : String) (amt : ℚ) (dry : Bool) (q : Quote)
    (hq : c.get_quote s = .ok q) :
    (DCA.invest_in_symbol c acct s amt dry = .error (.invalidPrice s) ↔
      q.lastPrice?.getD 0 = 0)
    ∧ (Rebalance.execute_trade c acct s act amt dry = .error (.invalidPrice s) ↔
      q.lastPrice?.getD 0 = 0) := by
  constructor
  · by_cases hl : q.lastPrice?.getD 0 = 0
    · simp [DCA.invest_in_symbol, hq, liftG_ok, ok_bind, hl, throw_eq]
    · simp only [DCA.invest_in_symbol, hq, liftG_ok, ok_bind, if_neg hl, hl, iff_false]
      by_cases h2 : pyInt (amt / q.lastPrice?.getD 0) = 0
      · simp [h2, pure_eq]
      · by_cases h3 : dry = true
        · simp [h2, h3, pure_eq]
        · simp only [if_neg h2, if_neg h3]
          exact bind_place_ne_invalid _ _ s
  · by_cases hl : q.lastPrice?.getD 0 = 0
    · simp [Rebalance.execute_trade, hq, liftG_ok, ok_bind, hl, throw_eq]
    · simp only [Rebalance.execute_trade, hq, liftG_ok, ok_bind, if_neg hl, hl, iff_false]
      by_cases h2 : pyInt (amt / q.lastPrice?.getD 0) = 0
      · simp [h2, pure_eq]
      · by_cases h3 : dry = true
        · simp [h2, h3, pure_eq]
        · simp only [if_neg h2, if_neg h3]
          exact bind_place_ne_invalid _ _ s

/-- C4 (amended): for every nonnegative dollar amount and positive price,
the computed share count is `floor(amount / price)`, the realized amount
`shares * price` is at most the requested amount, and a zero share count
yields `status=skipped` with no exception and no gateway order (the result
does not depend on `place_order`).  (For negative amounts Python `int()`
truncation differs from the floor; see the counterexample.) -/
theorem c4_amended (c : Client) (acct s : String) (amt p dip : ℚ) (dry : Bool) (q : Quote)
    (hq : c.get_quote s = .ok q) (hp : q.lastPrice?.getD 0 = p)
    (hpos : 0 < p) (hamt : 0 ≤ amt) :
    pyInt (amt / p) = ⌊amt / p⌋
    ∧ (⌊amt / p⌋ : ℚ) * p ≤ amt
    ∧ (pyInt (amt / p) = 0 →
        DCA.invest_in_symbol c acct s amt dry =
          .ok { symbol := s, status := "skipped", reason := some "amount too small",
                amount := some amt, price := some p }
        ∧ Opportunistic.execute_opportunistic_buy c acct s p amt dip dry =
          .ok { symbol := s, status := "skipped", reason := some "amount too small",
                amount := some amt, price := some p, dip := some dip })
    ∧ (pyInt (amt / p) ≠ 0 →
        DCA.invest_in_symbol c acct s amt true =
          .ok { symbol := s, status := "dry_run", shares := some (pyInt (amt / p)),
                price := some p, amount := some ((pyInt (amt / p) : ℚ) * p) }) := by
  have hne : p ≠ 0 := ne_of_gt hpos
  refine ⟨pyInt_eq_floor_of_nonneg (div_nonneg hamt (le_of_lt hpos)), ?_, ?_, ?_⟩
  · calc (⌊amt / p⌋ : ℚ) * p ≤ (amt / p) * p :=
          mul_le_mul_of_nonneg_right (Int.floor_le _) (le_of_lt hpos)
      _ = amt := div_mul_cancel₀ amt hne
  · intro h0
    constructor
    · simp [DCA.invest_in_symbol, hq, liftG_ok, ok_bind, hp, hne, h0, pure_eq]
    · simp [Opportunistic.execute_opportunistic_buy, h0, pure_eq]
  · intro h0
    simp [DCA.invest_in_symbol, hq, liftG_ok, ok_bind, hp, hne, h0, pure_eq]

/-- C5 (amended): with a good quote (`last_price != 0` and 52-week high
`!= 0`), a buy is triggered iff `dip_from_high >= threshold` or the
intraday change is negative with magnitude `>= threshold`, where the
intraday change is taken as 0 whenever `open_price <= 0` (the source tests
`open_price > 0`, not `open_price != 0`); bad-data symbols are silently
skipped (`None`, no exception). -/
theorem c5_amended (c : Client) (acct s : String) (θ amt : ℚ) (dry : Bool) (q : Quote)
    (hq : c.get_quote s = .ok q) :
    (q.lastPrice?.getD 0 = 0 ∨ q.wk52High?.getD 0 = 0 →
      Opportunistic.check_symbol_for_dip c acct s θ amt dry = .ok none)
    ∧ (q.lastPrice?.getD 0 ≠ 0 → q.wk52High?.getD 0 ≠ 0 →
        (((q.wk52High?.getD 0 - q.lastPrice?.getD 0) / q.wk52High?.getD 0 ≥ θ ∨
          ((if q.openPrice?.getD 0 > 0 then
              (q.lastPrice?.getD 0 - q.openPrice?.getD 0) / q.openPrice?.getD 0
            else 0) < 0 ∧
           |(if q.openPrice?.getD 0 > 0 then
               (q.lastPrice?.getD 0 - q.openPrice?.getD 0) / q.openPrice?.getD 0
             else 0)| ≥ θ)) →
          Opportunistic.check_symbol_for_dip c acct s θ amt dry =
            Except.map some (Opportunistic.execute_opportunistic_buy c acct s
              (q.lastPrice?.getD 0) amt
              ((q.wk52High?.getD 0 - q.lastPrice?.getD 0) / q.wk52High?.getD 0) dry))
        ∧ (Opportunistic.check_symbol_for_dip c acct s θ amt dry = .ok none ↔
            ¬ ((q.wk52High?.getD 0 - q.lastPrice?.getD 0) / q.wk52High?.getD 0 ≥ θ ∨
               ((if q.openPrice?.getD 0 > 0 then
                   (q.lastPrice?.getD 0 - q.openPrice?.getD 0) / q.openPrice?.getD 0
                 else 0) < 0 ∧
                |(if q.openPrice?.getD 0 > 0 then
                    (q.lastPrice?.getD 0 - q.openPrice?.getD 0) / q.openPrice?.getD 0
                  else 0)| ≥ θ)))) := by
  constructor
  · intro hbad
    simp [Opportunistic.check_symbol_for_dip, hq, liftG_ok, ok_bind, hbad, pure_eq]
  · intro hl hh
    have hbad : ¬ (q.lastPrice?.getD 0 = 0 ∨ q.wk52High?.getD 0 = 0) := by
      rintro (h | h)
      · exact hl h
      · exact hh h
    constructor
    · intro htrig
      simp only [Opportunistic.check_symbol_for_dip, hq, liftG_ok, ok_bind, if_neg hbad,
        if_neg (not_not_intro htrig)]
      exact bind_pure_some _
    · by_cases htrig : (q.wk52High?.getD 0 - q.lastPrice?.getD 0) / q.wk52High?.getD 0 ≥ θ ∨
        ((if q.openPrice?.getD 0 > 0 then
            (q.lastPrice?.getD 0 - q.openPrice?.getD 0) / q.openPrice?.getD 0
          else 0) < 0 ∧
         |(if q.openPrice?.getD 0 > 0 then
             (q.lastPrice?.getD 0 - q.openPrice?.getD 0) / q.openPrice?.getD 0
           else 0)| ≥ θ)
      · simp only [Opportunistic.check_symbol_for_dip, hq, liftG_ok, ok_bind, if_neg hbad,
          if_neg (not_not_intro htrig), bind_pure_some, htrig, not_true, iff_false]
        exact map_some_ne_ok_none _
      · simp only [Opportunistic.check_symbol_for_dip, hq, liftG_ok, ok_bind, if_neg hbad,
          if_pos htrig, pure_eq]
        simp [htrig]

/-! ### Concrete gateway instances for counterexamples and witnesses -/

/-- Account with zero liquidation value; quotes at $10. -/
def c1Client : Client :=
  { get_quote := fun _ => .ok { lastPrice? := some 10, openPrice? := some 10,
                                wk52High? := some 10 },
    get_positions := fun _ => .ok [],
    get_account_balances := fun _ => .ok { liquidationValue? := some 0 },
    place_order := fun _ _ => .ok { order_id? := some "X" } }

/-- Gateway quoting a negative price. -/
def c3Client : Client :=
  { get_quote := fun _ => .ok { lastPrice? := some (-10) },
    get_positions := fun _ => .ok [],
    get_account_balances := fun _ => .ok {},
    place_order := fun _ _ => .ok { order_id? := some "X" } }

/-- Gateway quoting a zero price. -/
def c3zClient : Client :=
  { get_quote := fun _ => .ok { lastPrice? := some 0 },
    get_positions := fun _ => .ok [],
    get_account_balances := fun _ => .ok {},
    place_order := fun _ _ => .ok { order_id? := some "X" } }

/-- Gateway quoting $10 and accepting orders. -/
def c4Client : Client :=
  { get_quote := fun _ => .ok { lastPrice? := some 10 },
    get_positions := fun _ => .ok [],
    get_account_balances := fun _ => .ok {},
    place_order := fun _ _ => .ok { order_id? := some "X" } }

/-- Quote with a negative open price (last 5, open -10, 52-week high 5). -/
def c5Client : Client :=
  { get_quote := fun _ => .ok { lastPrice? := some 5, openPrice? := some (-10),
                                wk52High? := some 5 },
    get_positions := fun _ => .ok [],
    get_account_balances := fun _ => .ok {},
    place_order := fun _ _ => .ok { order_id? := some "X" } }

/-- The spec scenario quote: last 10, 52-week high 10.5. -/
def c5wQuote : Quote := { lastPrice? := some 10, wk52High? := some (21/2) }

def c5wClient : Client :=
  { get_quote := fun _ => .ok c5wQuote,
    get_positions := fun _ => .ok [],
    get_account_balances := fun _ => .ok {},
    place_order := fun _ _ => .ok { order_id? := some "X" } }

/-- Gateway whose quote call fails for SPY but succeeds for other symbols. -/
def c8Client : Client :=
  { get_quote := fun s => if s = "SPY" then .error "quote failure"
                          else .ok { lastPrice? := some 10 },
    get_positions := fun _ => .ok [],
    get_account_balances := fun _ => .ok {},
    place_order := fun _ _ => .ok { order_id? := some "X" } }

/-- C1 counterexample: with liquidation value 0 and target `{"SPY": 1.0}`
above the threshold, `RebalanceStrategy.execute` does **not** return the
empty list: it emits one action and returns a `skipped` result for it. -/
theorem c1_cex :
    Rebalance.execute c1Client "A" [("SPY", 1)] (1/20) false =
      .ok [{ symbol := "SPY", status := "skipped", reason := some "value too small",
             action := some "buy", value := some 0 }]
    ∧ Rebalance.execute c1Client "A" [("SPY", 1)] (1/20) false ≠ .ok [] :=
  ⟨by decide, by decide⟩

/-- Witness for `c1_amended` at the concrete zero-liquidation gateway. -/
theorem c1_witness :
    Rebalance.calculate_current_allocation [] { liquidationValue? := some 0 } = []
    ∧ ∃ rs, Rebalance.execute c1Client "A" [("SPY", 1)] (1/20) false = .ok rs
        ∧ rs.length =
            (Rebalance.calculate_rebalancing_actions [] [("SPY", 1)] (1/20)).length
        ∧ ∀ r ∈ rs, r.status = "skipped" ∨ r.status = "failed" :=
  c1_amended c1Client "A" [("SPY", 1)] (1/20) false [] { liquidationValue? := some 0 }
    (by decide) (by decide) (by decide)

/-- Witness for `c2_actions_characterization` at a concrete allocation. -/
theorem c2_witness :
    (∃ a ∈ Rebalance.calculate_rebalancing_actions [("SPY", 3/10)]
        [("SPY", 6/10), ("AGG", 2/5)] (1/20), a.symbol = "SPY") ↔
      |dictGet [("SPY", 3/10)] "SPY" 0 - 6/10| > 1/20 :=
  (((c2_actions_characterization [("SPY", 3/10)] [("SPY", 6/10), ("AGG", 2/5)] (1/20)
      (by decide)).1 "SPY" (6/10) (by decide)).1)

/-- C3 counterexample: a negative quoted price does not fail with the
invalid-price error — the code happily computes a negative share count. -/
theorem c3_cex :
    c3Client.get_quote "SPY" = .ok { lastPrice? := some (-10) }
    ∧ DCA.invest_in_symbol c3Client "A" "SPY" 100 true =
        .ok { symbol := "SPY", status := "dry_run", shares := some (-10),
              price := some (-10), amount := some 100 }
    ∧ (-10 : ℚ) < 0 :=
  ⟨by decide, by decide, by decide⟩

/-- Witness for `c3_amended` at a concrete zero-price gateway. -/
theorem c3_witness :
    (DCA.invest_in_symbol c3zClient "A" "SPY" 100 true = .error (.invalidPrice "SPY") ↔
      ({ lastPrice? := some 0 } : Quote).lastPrice?.getD 0 = 0)
    ∧ (Rebalance.execute_trade c3zClient "A" "SPY" "buy" 100 true =
        .error (.invalidPrice "SPY") ↔
      ({ lastPrice? := some 0 } : Quote).lastPrice?.getD 0 = 0) :=
  c3_amended c3zClient "A" "SPY" "buy" 100 true { lastPrice? := some 0 } (by decide)

/-- C4 counterexample: with a negative dollar amount ($-15 at price $10)
the executed share count is `int(-1.5) = -1`, not `floor(-1.5) = -2`, and
the realized amount $-10 exceeds the requested $-15. -/
theorem c4_cex :
    DCA.invest_in_symbol c4Client "A" "SPY" (-15) false =
      .ok { symbol := "SPY", status := "success", shares := some (-1), price := some 10,
            amount := some (-10), order_id := some (some "X") }
    ∧ (⌊((-15 : ℚ) / 10)⌋ = -2 ∧ (-1 : ℤ) ≠ -2)
    ∧ ¬ ((-10 : ℚ) ≤ -15) :=
  ⟨by decide, by decide, by decide⟩

/-- Witness for `c4_amended` at amount $100, price $10. -/
theorem c4_witness :
    pyInt ((100 : ℚ) / 10) = ⌊(100 : ℚ) / 10⌋
    ∧ (⌊(100 : ℚ) / 10⌋ : ℚ) * 10 ≤ 100 :=
  ⟨(c4_amended c4Client "A" "SPY" 100 10 0 false { lastPrice? := some 10 }
      (by decide) (by decide) (by decide) (by decide)).1,
   (c4_amended c4Client "A" "SPY" 100 10 0 false { lastPrice? := some 10 }
      (by decide) (by decide) (by decide) (by decide)).2.1⟩

/-- C5 counterexample: last 5, open -10, 52-week high 5, threshold 3%.
The claim computes `intraday_change = (5 - (-10))/(-10) = -1.5`, negative
with magnitude above the threshold, so it predicts a buy; the code takes
the intraday change as 0 because `open_price > 0` fails, computes
`dip_from_high = 0`, and emits no result. -/
theorem c5_cex :
    c5Client.get_quote "SPY" =
      .ok { lastPrice? := some 5, openPrice? := some (-10), wk52High? := some 5 }
    ∧ Opportunistic.check_symbol_for_dip c5Client "A" "SPY" (3/100) 100 true = .ok none
    ∧ (((5 : ℚ) - (-10)) / (-10) < 0 ∧ |((5 : ℚ) - (-10)) / (-10)| ≥ 3/100)
    ∧ ((5 : ℚ) ≠ 0 ∧ (5 : ℚ) ≠ 0) :=
  ⟨by decide, by decide, by decide, by decide⟩

/-- Witness for `c5_amended`: the spec scenario (last 10, high 10.5,
threshold 3%) triggers the buy path. -/
theorem c5_witness :
    Opportunistic.check_symbol_for_dip c5wClient "A" "SPY" (3/100) 100 true =
      Except.map some (Opportunistic.execute_opportunistic_buy c5wClient "A" "SPY"
        (c5wQuote.lastPrice?.getD 0) 100
        ((c5wQuote.wk52High?.getD 0 - c5wQuote.lastPrice?.getD 0) /
          c5wQuote.wk52High?.getD 0) true) :=
  ((c5_amended c5wClient "A" "SPY" (3/100) 100 true c5wQuote (by decide)).2
    (by decide) (by decide)).1 (by decide)

/-- C8: `DCAStrategy.execute` on a non-empty symbol list allocates exactly
`total_amount / len(symbols)` to every symbol, processes each symbol
independently, and records a per-symbol exception as a `failed` result
with the error message without aborting the remaining symbols. -/
theorem c8_dca_execute (c : Client) (acct : String) (symbols : List String)
    (total : ℚ) (dry : Bool) (h : symbols ≠ []) :
    DCA.execute c acct symbols total dry
      = symbols.map (fun s =>
          match DCA.invest_in_symbol c acct s (total / (symbols.length : ℚ)) dry with
          | .ok r => r
          | .error e => { symbol := s, status := "failed", error := some e.toMessage })
    ∧ (DCA.execute c acct symbols total dry).length = symbols.length
    ∧ ∀ (i : ℕ) (hi : i < symbols.length),
        (DCA.execute c acct symbols total dry)[i]? =
          some (match DCA.invest_in_symbol c acct (symbols.get ⟨i, hi⟩)
                  (total / (symbols.length : ℚ)) dry with
                | .ok r => r
                | .error e => { symbol := symbols.get ⟨i, hi⟩, status := "failed",
                                error := some e.toMessage }) := by
  have hmap : DCA.execute c acct symbols total dry
      = symbols.map (fun s =>
          match DCA.invest_in_symbol c acct s (total / (symbols.length : ℚ)) dry with
          | .ok r => r
          | .error e => { symbol := s, status := "failed", error := some e.toMessage }) := by
    simp [DCA.execute, h]
  refine ⟨hmap, by simp [hmap], ?_⟩
  intro i hi
  rw [hmap, List.getElem?_map, List.getElem?_eq_getElem hi]
  simp [List.get_eq_getElem]

/-- Witness for `c8_dca_execute`: the spec scenario, $100 over
`["SPY","QQQ"]` where the SPY quote raises — one failed result, one
successful order, two results in total. -/
theorem c8_witness :
    (DCA.execute c8Client "A" ["SPY", "QQQ"] 100 false).length = 2 :=
  (c8_dca_execute c8Client "A" ["SPY", "QQQ"] 100 false (by decide)).2.1

/-! ### utils/validation.py -/

/-- Python `round` to an integer: round half to even on the exact value
(floats are modelled as exact rationals). -/
def roundHalfEven (q : ℚ) : ℤ :=
  let f : ℤ := ⌊q⌋
  let r : ℚ := q - f
  if r < 1/2 then f
  else if r > 1/2 then f + 1
  else if f % 2 = 0 then f else f + 1

/-- Python `round(x, 6)` (validation.py rounds weights to 6 decimals). -/
def pyRound6 (q : ℚ) : ℚ := (roundHalfEven (q * 1000000) : ℚ) / 1000000

/-- Python `str.strip()`. -/
def pyStrip (s : String) : String :=
  String.mk (((s.toList.dropWhile Char.isWhitespace).reverse.dropWhile
    Char.isWhitespace).reverse)

/-- Python `str.upper()` (ASCII; symbols only contain ASCII). -/
def pyUpper (s : String) : String := String.mk (s.toList.map Char.toUpper)

/-- `validate_symbol` (validation.py 89-144): strip, uppercase, require
1-5 characters matching `^[A-Z]{1,5}$`.  The `None`/type guards do not
arise for a typed `String` input; floats cannot be NaN in the ℚ model. -/
def validate_symbol (symbol : String) : Except String String :=
  let s := pyUpper (pyStrip symbol)
  if s = "" then .error "Symbol cannot be empty or whitespace"
  else if s.length < 1 ∨ s.length > 5 then .error "Symbol must be 1-5 characters"
  else if ¬ (∀ ch ∈ s.toList, 'A' ≤ ch ∧ ch ≤ 'Z') then .error "Invalid symbol format"
  else .ok s

/-- The per-entry loop of `validate_allocation` (validation.py 327-352):
validate the symbol, check the weight is in (0, 1], round to 6 decimals,
store into the result dict and accumulate the running total. -/
def validate_allocation_go : List (String × ℚ) → List (String × ℚ) → ℚ →
    Except String (List (String × ℚ) × ℚ)
  | [], acc, total => .ok (acc, total)
  | (symbol, percentage) :: rest, acc, total =>
    match validate_symbol symbol with
    | .error e => .error e
    | .ok validated_symbol =>
      if percentage ≤ 0 ∨ percentage > 1 then
        .error "Percentage must be greater than 0 and less than or equal to 1"
      else
        validate_allocation_go rest (dictSet acc validated_symbol (pyRound6 percentage))
          (total + pyRound6 percentage)

/-- `validate_allocation` (validation.py 276-362). -/
def validate_allocation (allocation : List (String × ℚ)) (require_sum_to_one : Bool)
    (tolerance : ℚ) : Except String (List (String × ℚ)) :=
  if allocation = [] then .error "Allocation cannot be empty"
  else if allocation.length > 100 then .error "Too many symbols in allocation"
  else
    match validate_allocation_go allocation [] 0 with
    | .error e => .error e
    | .ok (validated_allocation, total) =>
      if require_sum_to_one then
        if ¬ (1 - tolerance ≤ total ∧ total ≤ 1 + tolerance) then
          .error "Allocation percentages must sum to 1.0"
        else .ok validated_allocation
      else .ok validated_allocation

theorem dictSet_mem {acc : List (String × ℚ)} {k : String} {v : ℚ} {p : String × ℚ}
    (h : p ∈ dictSet acc k v) : p ∈ acc ∨ p = (k, v) := by
  induction acc with
  | nil =>
    simp [dictSet] at h
    exact Or.inr h
  | cons q rest ih =>
    obtain ⟨k2, v2⟩ := q
    by_cases hk : k2 = k
    · simp only [dictSet, if_pos hk, List.mem_cons] at h
      rcases h with h | h
      · exact Or.inr h
      · exact Or.inl (List.mem_cons_of_mem _ h)
    · simp only [dictSet, if_neg hk, List.mem_cons] at h
      rcases h with h | h
      · exact Or.inl (List.mem_cons.mpr (Or.inl h))
      · rcases ih h with h2 | h2
        · exact Or.inl (List.mem_cons_of_mem _ h2)
        · exact Or.inr h2

theorem go_ok_iff (l : List (String × ℚ)) :
    ∀ acc total, (∃ r, validate_allocation_go l acc total = .ok r) ↔
      ∀ p ∈ l, (∃ s2, validate_symbol p.1 = .ok s2) ∧ 0 < p.2 ∧ p.2 ≤ 1 := by
  induction l with
  | nil => intro acc total; simp [validate_allocation_go]
  | cons p rest ih =>
    intro acc total
    obtain ⟨symbol, percentage⟩ := p
    cases hv : validate_symbol symbol with
    | error e =>
      simp only [validate_allocation_go, hv, List.mem_cons]
      constructor
      · rintro ⟨r, hr⟩
        cases hr
      · intro hall
        obtain ⟨⟨s2, hs2⟩, _, _⟩ := hall (symbol, percentage) (Or.inl rfl)
        rw [hv] at hs2
        cases hs2
    | ok vs =>
      by_cases hp : percentage ≤ 0 ∨ percentage > 1
      · simp only [validate_allocation_go, hv, if_pos hp, List.mem_cons]
        constructor
        · rintro ⟨r, hr⟩
          cases hr
        · intro hall
          obtain ⟨_, h1, h2⟩ := hall (symbol, percentage) (Or.inl rfl)
          rcases hp with hp | hp
          · exact absurd h1 (not_lt.mpr hp)
          · exact absurd h2 (not_le.mpr hp)
      · push_neg at hp
        have hneg : ¬ (percentage ≤ 0 ∨ percentage > 1) := by push_neg; exact hp
        simp only [validate_allocation_go, hv, if_neg hneg, List.mem_cons]
        rw [ih]
        constructor
        · intro hall q hq
          rcases hq with rfl | hq
          · exact ⟨⟨vs, hv⟩, hp.1, hp.2⟩
          · exact hall q hq
        · intro hall q hq
          exact hall q (Or.inr hq)

theorem go_ok_val (l : List (String × ℚ)) :
    ∀ acc total v t, validate_allocation_go l acc total = .ok (v, t) →
      t = total + (l.map (fun p => pyRound6 p.2)).sum
      ∧ ∀ q2 ∈ v, q2 ∈ acc ∨ ∃ p ∈ l, q2.2 = pyRound6 p.2 := by
  induction l with
  | nil =>
    intro acc total v t h
    simp only [validate_allocation_go] at h
    obtain ⟨rfl, rfl⟩ := Prod.mk.inj (Except.ok.inj h)
    exact ⟨by simp, fun q2 hq2 => Or.inl hq2⟩
  | cons p rest ih =>
    intro acc total v t h
    obtain ⟨symbol, percentage⟩ := p
    cases hv : validate_symbol symbol with
    | error e =>
      simp only [validate_allocation_go, hv] at h
      cases h
    | ok vs =>
      by_cases hp : percentage ≤ 0 ∨ percentage > 1
      · simp only [validate_allocation_go, hv, if_pos hp] at h
        cases h
      · simp only [validate_allocation_go, hv, if_neg hp] at h
        obtain ⟨ht, hprov⟩ := ih _ _ _ _ h
        constructor
        · rw [ht]
          simp only [List.map_cons, List.sum_cons]
          ring
        · intro q2 hq2
          rcases hprov q2 hq2 with hacc | ⟨p2, hp2, he⟩
          · rcases dictSet_mem hacc with h2 | h2
            · exact Or.inl h2
            · exact Or.inr ⟨(symbol, percentage), List.mem_cons_self _ _, by rw [h2]⟩
          · exact Or.inr ⟨p2, List.mem_cons_of_mem _ hp2, he⟩

theorem validate_allocation_ok_iff (allocation : List (String × ℚ)) (req : Bool) :
    (∃ v, validate_allocation allocation req (1/1000) = .ok v) ↔
      (allocation ≠ [] ∧ allocation.length ≤ 100
       ∧ (∀ p ∈ allocation, (∃ s2, validate_symbol p.1 = .ok s2) ∧ 0 < p.2 ∧ p.2 ≤ 1)
       ∧ (req = true →
           |((allocation.map (fun p => pyRound6 p.2)).sum) - 1| ≤ 1/1000)) := by
  by_cases h1 : allocation = []
  · simp [validate_allocation, h1]
  · by_cases h2 : allocation.length > 100
    · constructor
      · rintro ⟨v, hv⟩
        simp [validate_allocation, h1, if_pos h2] at hv
      · rintro ⟨-, hlen, -⟩
        omega
    · cases hgo : validate_allocation_go allocation [] 0 with
      | error e =>
        have hnall : ¬ ∀ p ∈ allocation,
            (∃ s2, validate_symbol p.1 = .ok s2) ∧ 0 < p.2 ∧ p.2 ≤ 1 := by
          intro hall
          obtain ⟨r, hr⟩ := (go_ok_iff allocation [] 0).mpr hall
          rw [hgo] at hr
          cases hr
        constructor
        · rintro ⟨v, hv⟩
          simp only [validate_allocation, if_neg h1, if_neg h2, hgo] at hv
          cases hv
        · rintro ⟨-, -, hall, -⟩
          exact absurd hall hnall
      | ok r =>
        obtain ⟨v0, t0⟩ := r
        have hall := (go_ok_iff allocation [] 0).mp ⟨(v0, t0), hgo⟩
        have ht := (go_ok_val allocation [] 0 v0 t0 hgo).1
        rw [zero_add] at ht
        by_cases hreq : req = true
        · by_cases hsum : 1 - 1/1000 ≤ t0 ∧ t0 ≤ 1 + 1/1000
          · constructor
            · intro _
              refine ⟨h1, not_lt.mp h2, hall, fun _ => ?_⟩
              rw [← ht, abs_le]
              constructor <;> linarith [hsum.1, hsum.2]
            · intro _
              refine ⟨v0, ?_⟩
              simp only [validate_allocation, if_neg h1, if_neg h2, hgo, hreq,
                if_true, not_true, if_neg (not_not_intro hsum), if_false]
          · constructor
            · rintro ⟨v, hv⟩
              simp only [validate_allocation, if_neg h1, if_neg h2, hgo, hreq,
                if_true, if_pos hsum] at hv
              cases hv
            · rintro ⟨-, -, -, habs⟩
              have habs2 := habs hreq
              rw [← ht, abs_le] at habs2
              exact (hsum ⟨by linarith [habs2.1], by linarith [habs2.2]⟩).elim
        · have hfalse : req = false := by
            cases req
            · rfl
            · exact absurd rfl hreq
          constructor
          · intro _
            exact ⟨h1, not_lt.mp h2, hall, fun hcontra => absurd hcontra hreq⟩
          · intro _
            refine ⟨v0, ?_⟩
            simp only [validate_allocation, if_neg h1, if_neg h2, hgo, hfalse,
              Bool.false_eq_true, if_false]

/-- C9: `validate_allocation` accepts exactly the non-empty dictionaries of
at most 100 entries mapping valid symbols to weights in (0, 1] (weights are
exact rationals, so always finite), with the sum of the 6-decimal-rounded
weights within 0.001 of 1.0 when `require_sum_to_one`; every returned
weight is an input weight rounded to 6 decimals; the two spec examples
behave as stated. -/
theorem c9_validate_allocation (allocation : List (String × ℚ)) (req : Bool) :
    ((∃ v, validate_allocation allocation req (1/1000) = .ok v) ↔
      (allocation ≠ [] ∧ allocation.length ≤ 100
       ∧ (∀ p ∈ allocation, (∃ s2, validate_symbol p.1 = .ok s2) ∧ 0 < p.2 ∧ p.2 ≤ 1)
       ∧ (req = true →
           |((allocation.map (fun p => pyRound6 p.2)).sum) - 1| ≤ 1/1000)))
    ∧ (∀ v, validate_allocation allocation req (1/1000) = .ok v →
        ∀ q2 ∈ v, ∃ p ∈ allocation, q2.2 = pyRound6 p.2)
    ∧ validate_allocation [("SPY", 1/2), ("AGG", 1/2)] true (1/1000) =
        .ok [("SPY", 1/2), ("AGG", 1/2)]
    ∧ validate_allocation [("SPY", 1/2)] true (1/1000) =
        .error "Allocation percentages must sum to 1.0" := by
  refine ⟨validate_allocation_ok_iff allocation req, ?_, by decide, by decide⟩
  intro v hv q2 hq2
  by_cases h1 : allocation = []
  · simp [validate_allocation, h1] at hv
  · by_cases h2 : allocation.length > 100
    · simp [validate_allocation, h1, if_pos h2] at hv
    · cases hgo : validate_allocation_go allocation [] 0 with
      | error e =>
        simp only [validate_allocation, if_neg h1, if_neg h2, hgo] at hv
        cases hv
      | ok r =>
        obtain ⟨v0, t0⟩ := r
        have hprov := (go_ok_val allocation [] 0 v0 t0 hgo).2
        have hv0 : v0 = v := by
          simp only [validate_allocation, if_neg h1, if_neg h2, hgo] at hv
          split_ifs at hv
          all_goals try cases hv
          all_goals rfl
        subst hv0
        rcases hprov q2 hq2 with h | h
        · cases h
        · exact h

/-- Witness for `c9_validate_allocation` at the spec examples. -/
theorem c9_witness :
    validate_allocation [("SPY", 1/2), ("AGG", 1/2)] true (1/1000) =
      .ok [("SPY", 1/2), ("AGG", 1/2)] :=
  (c9_validate_allocation [("SPY", 1/2), ("AGG", 1/2)] true).2.2.1

/-! ### utils/audit_logger.py

JSON values are modelled by the mutual inductives `JVal`/`JFields`; a
Python dict is a `JFields` list in insertion order.  The SHA-256 digest is
an abstract parameter `digest : String → String` (every property below
holds for an arbitrary digest); numeric rendering abstracts Python float
`repr`.  Braces in rendered JSON are written with their escape codes. -/

mutual
inductive JVal where
  | s (v : String)
  | q (v : ℚ)
  | i (v : ℤ)
  | b (v : Bool)
  | obj (fs : JFields)
deriving DecidableEq
inductive JFields where
  | nil
  | cons (k : String) (v : JVal) (rest : JFields)
deriving DecidableEq
end

def JFields.append : JFields → JFields → JFields
  | .nil, l => l
  | .cons k v r, l => .cons k v (r.append l)

/-- First-match dict lookup (`key in d` / `d[key]`). -/
def lookupField (fs : JFields) (k : String) : Option JVal :=
  match fs with
  | .nil => none
  | .cons k2 v r => if k2 = k then some v else lookupField r k

/-- String comparison by code points (Python sort order for `sort_keys`). -/
def strLt (a b : String) : Bool := decide (a.data < b.data)

def insertField (k : String) (v : JVal) : JFields → JFields
  | .nil => .cons k v .nil
  | .cons k2 v2 r =>
    if strLt k k2 then .cons k v (.cons k2 v2 r) else .cons k2 v2 (insertField k v r)

mutual
/-- Key-sort a JSON value recursively (`json.dumps(..., sort_keys=True)`). -/
def sortJson : JVal → JVal
  | .s v => .s v
  | .q v => .q v
  | .i v => .i v
  | .b v => .b v
  | .obj fs => .obj (sortFields fs)
def sortFields : JFields → JFields
  | .nil => .nil
  | .cons k v r => insertField k (sortJson v) (sortFields r)
end

def escapeChar (c : Char) : String :=
  if c = '"' then "\\\""
  else if c = '\\' then "\\\\"
  else if c = '\n' then "\\n"
  else if c = '\t' then "\\t"
  else if c = '\r' then "\\r"
  else String.mk [c]

def renderStr (s : String) : String :=
  "\"" ++ String.join (s.toList.map escapeChar) ++ "\""

/-- Rendering of a float; exact-rational stand-in for Python float repr
(the hash digest is abstract, so no property depends on this format). -/
def renderRat (v : ℚ) : String :=
  if v.den = 1 then toString v.num ++ ".0"
  else toString v.num ++ "/" ++ toString v.den

mutual
/-- `json.dumps` with default separators. -/
def render : JVal → String
  | .s v => renderStr v
  | .q v => renderRat v
  | .i v => toString v
  | .b v => if v then "true" else "false"
  | .obj fs => "\x7b" ++ renderFields fs ++ "\x7d"
def renderFields : JFields → String
  | .nil => ""
  | .cons k v .nil => renderStr k ++ ": " ++ render v
  | .cons k v r => renderStr k ++ ": " ++ render v ++ ", " ++ renderFields r
end

/-- Python `str()` of a JSON value (only the string case occurs in the
source paths modelled here). -/
def jvalStr : JVal → String
  | .s v => v
  | .i v => toString v
  | .q v => renderRat v
  | .b v => if v then "True" else "False"
  | .obj _ => "dict"

/-- `redact_sensitive` (validation.py 505-542). -/
def redact_sensitive (value : String) (visible_chars : ℕ) : String :=
  if value = "" then ""
  else if value.length ≤ visible_chars then String.mk (List.replicate value.length '*')
  else String.mk (List.replicate (value.length - visible_chars) '*') ++
       String.mk (value.toList.drop (value.length - visible_chars))

/-- `redact_account_number` (validation.py 545-559). -/
def redact_account_number (account_number : String) : String :=
  redact_sensitive account_number 4

/-- `redact_amount` (validation.py 562-583): magnitude-only display,
`"$" + "*" * len(str(int(abs(amount)))) + ".**"`. -/
def redact_amount (amount : ℚ) : String :=
  "$" ++ String.mk (List.replicate (toString (⌊|amount|⌋).toNat).length '*') ++ ".**"

/-- The `amount_display` field `_redact_entry` appends when the dict has a
numeric `amount` (audit_logger.py 119-122). -/
def amount_display_suffix (fs : JFields) : JFields :=
  match lookupField fs "amount" with
  | some (.q x) => .cons "amount_display" (.s (redact_amount x)) .nil
  | some (.i n) => .cons "amount_display" (.s (redact_amount (n : ℚ))) .nil
  | _ => .nil

mutual
/-- The per-key pass of `AuditLogger._redact_entry` (audit_logger.py
109-128): redact `account_number`, recurse into `details`, keep the raw
`amount`; the `amount_display` suffix of the current dict is carried in
the second argument and appended at the end (Python appends the new key
after the existing ones). -/
def redactGo : JFields → JFields → JFields
  | .nil, suf => suf
  | .cons k v r, suf =>
    .cons k
      (if k = "account_number" then .s (redact_account_number (jvalStr v))
       else if k = "details" then redactDetail v
       else v)
      (redactGo r suf)
def redactDetail : JVal → JVal
  | .s v => .s v
  | .q v => .q v
  | .i v => .i v
  | .b v => .b v
  | .obj d => .obj (redactGo d (amount_display_suffix d))
end

/-- `AuditLogger._redact_entry` (audit_logger.py 109-128). -/
def redact_entry (fs : JFields) : JFields := redactGo fs (amount_display_suffix fs)

/-- `entry_copy['_prev_hash'] = self._last_hash` under Python truthiness
(`if self._last_hash:`; audit_logger.py 100-103). -/
def with_prev (last_hash : Option String) (entry : JFields) : JFields :=
  match last_hash with
  | some h => if h = "" then entry else entry.append (.cons "_prev_hash" (.s h) .nil)
  | none => entry

/-- `AuditLogger._compute_hash` (audit_logger.py 98-107): digest of the
sorted-key serialization of the entry plus the previous hash, truncated
to 16 hex characters. -/
def compute_hash (digest : String → String) (last_hash : Option String)
    (entry : JFields) : String :=
  (digest (render (sortJson (.obj (with_prev last_hash entry))))).take 16

/-- The keyword arguments of `AuditLogger.log` plus the ambient values the
source reads itself (`datetime.now(...)` as `timestamp`, `os.getpid()` as
`pid`), supplied as data. -/
structure EventInput where
  timestamp : String
  event_type : String
  success : Bool
  account_number : Option String := none
  symbol : Option String := none
  amount : Option ℚ := none
  quantity : Option ℤ := none
  strategy : Option String := none
  details : Option JFields := none
  error : Option String := none
  pid : ℤ
deriving DecidableEq

/-- Optional string field added under `if value:` (truthiness). -/
def opt_str_field (k : String) : Option String → JFields
  | some v => if v = "" then .nil else .cons k (.s v) .nil
  | none => .nil

/-- Optional numeric field added under `if value is not None:`. -/
def opt_q_field (k : String) : Option ℚ → JFields
  | some v => .cons k (.q v) .nil
  | none => .nil

/-- Optional integer field added under `if value is not None:`. -/
def opt_i_field (k : String) : Option ℤ → JFields
  | some v => .cons k (.i v) .nil
  | none => .nil

/-- `details` added under `if details:` (non-empty dict truthiness). -/
def opt_details_field : Option JFields → JFields
  | some d => if d = .nil then .nil else .cons "details" (.obj d) .nil
  | none => .nil

/-- The entry dict built by `AuditLogger.log` (audit_logger.py 159-183),
fields in insertion order, before hashing and redaction. -/
def build_entry (ev : EventInput) : JFields :=
  (JFields.cons "timestamp" (.s ev.timestamp)
    (.cons "event_type" (.s ev.event_type)
      (.cons "success" (.b ev.success) .nil))).append
  ((opt_str_field "account_number" ev.account_number).append
  ((opt_str_field "symbol" ev.symbol).append
  ((opt_q_field "amount" ev.amount).append
  ((opt_i_field "quantity" ev.quantity).append
  ((opt_str_field "strategy" ev.strategy).append
  ((opt_details_field ev.details).append
  ((opt_str_field "error" ev.error).append
    (.cons "pid" (.i ev.pid) .nil))))))))

/-- `AuditLogger.log` (audit_logger.py 130-196): build the entry, extend
the hash chain on the unredacted entry, redact only the copy that is
serialized to the log file, and return the unredacted entry.  Returns
(returned entry, written log line, new `_last_hash`). -/
def AuditLogger.log (digest : String → String) (redact_flag hash_chain_flag : Bool)
    (last_hash : Option String) (ev : EventInput) :
    JFields × String × Option String :=
  let entry := build_entry ev
  let entry2 := if hash_chain_flag
    then entry.append (.cons "_hash" (.s (compute_hash digest last_hash entry)) .nil)
    else entry
  let new_last := if hash_chain_flag
    then some (compute_hash digest last_hash entry)
    else last_hash
  let log_entry := if redact_flag then redact_entry entry2 else entry2
  (entry2, render (.obj log_entry), new_last)

/-- A sequence of `log` calls on one `AuditLogger` with
`include_hash_chain=True`, threading `_last_hash`. -/
def AuditLogger.run_log (digest : String → String) (redact_flag : Bool)
    (last_hash : Option String) :
    List EventInput → List (JFields × String) × Option String
  | [] => ([], last_hash)
  | ev :: rest =>
    let step := AuditLogger.log digest redact_flag true last_hash ev
    let next := AuditLogger.run_log digest redact_flag step.2.2 rest
    ((step.1, step.2.1) :: next.1, next.2)

/-- The spec's chain formula: entry N's hash is the truncated digest of
the deterministic (sorted-key) serialization of the **unredacted** entry N
together with entry N-1's hash, and seeds entry N+1. -/
def chain_hashes (digest : String → String) :
    Option String → List EventInput → List String
  | _, [] => []
  | prev, ev :: rest =>
    let h := (digest (render (sortJson (.obj (with_prev prev (build_entry ev)))))).take 16
    h :: chain_hashes digest (some h) rest

def chain_last (st : Option String) : List String → Option String
  | [] => st
  | h :: rest => chain_last (some h) rest

theorem lookup_append : ∀ (l1 l2 : JFields) (k : String),
    lookupField (l1.append l2) k =
      match lookupField l1 k with
      | some v => some v
      | none => lookupField l2 k
  | .nil, l2, k => by simp [JFields.append, lookupField]
  | .cons k2 v r, l2, k => by
    by_cases hk : k2 = k
    · simp [JFields.append, lookupField, hk]
    · simp [JFields.append, lookupField, hk, lookup_append r l2 k]

theorem lookup_opt_str (k2 : String) (v : Option String) (k : String) (h : ¬ k2 = k) :
    lookupField (opt_str_field k2 v) k = none := by
  cases v with
  | none => rfl
  | some s =>
    by_cases hs : s = ""
    · simp [opt_str_field, hs, lookupField]
    · simp [opt_str_field, hs, lookupField, h]

theorem lookup_opt_q (k2 : String) (v : Option ℚ) (k : String) (h : ¬ k2 = k) :
    lookupField (opt_q_field k2 v) k = none := by
  cases v with
  | none => rfl
  | some x => simp [opt_q_field, lookupField, h]

theorem lookup_opt_i (k2 : String) (v : Option ℤ) (k : String) (h : ¬ k2 = k) :
    lookupField (opt_i_field k2 v) k = none := by
  cases v with
  | none => rfl
  | some x => simp [opt_i_field, lookupField, h]

theorem lookup_opt_details (v : Option JFields) (k : String) (h : ¬ "details" = k) :
    lookupField (opt_details_field v) k = none := by
  cases v with
  | none => rfl
  | some d =>
    by_cases hd : d = .nil
    · simp [opt_details_field, hd, lookupField]
    · simp [opt_details_field, hd, lookupField, h]

/-- A key that is none of the eleven fixed entry keys is absent from the
built entry (in particular `_hash`, `_prev_hash`, `amount_display`). -/
theorem lookup_build_entry_none (ev : EventInput) (k : String)
    (h1 : ¬ "timestamp" = k) (h2 : ¬ "event_type" = k) (h3 : ¬ "success" = k)
    (h4 : ¬ "account_number" = k) (h5 : ¬ "symbol" = k) (h6 : ¬ "amount" = k)
    (h7 : ¬ "quantity" = k) (h8 : ¬ "strategy" = k) (h9 : ¬ "details" = k)
    (h10 : ¬ "error" = k) (h11 : ¬ "pid" = k) :
    lookupField (build_entry ev) k = none := by
  simp [build_entry, lookup_append, lookupField, h1, h2, h3, h11,
    lookup_opt_str _ _ _ h4, lookup_opt_str _ _ _ h5, lookup_opt_q _ _ _ h6,
    lookup_opt_i _ _ _ h7, lookup_opt_str _ _ _ h8, lookup_opt_details _ _ h9,
    lookup_opt_str _ _ _ h10]

/-- C6: over any sequence of logged events, with the hash chain enabled and
any redaction setting, every persisted entry's `_hash` equals the spec's
chain formula — the truncated digest of the sorted-key serialization of the
**unredacted** entry together with the previous entry's hash (the initial
`_last_hash` for the first event) — and the final `_last_hash` is the last
chain hash, seeding the next entry. -/
theorem c6_hash_chain (digest : String → String) (redact_flag : Bool)
    (st : Option String) (evs : List EventInput) :
    ((AuditLogger.run_log digest redact_flag st evs).1.map
        (fun p => lookupField p.1 "_hash"))
      = (chain_hashes digest st evs).map (fun h => some (JVal.s h))
    ∧ (AuditLogger.run_log digest redact_flag st evs).2 =
        chain_last st (chain_hashes digest st evs) := by
  induction evs generalizing st with
  | nil => exact ⟨rfl, rfl⟩
  | cons ev rest ih =>
    have hhash : lookupField
        ((build_entry ev).append
          (.cons "_hash" (.s (compute_hash digest st (build_entry ev))) .nil)) "_hash"
        = some (.s (compute_hash digest st (build_entry ev))) := by
      rw [lookup_append, lookup_build_entry_none ev "_hash"
        (by decide) (by decide) (by decide) (by decide) (by decide) (by decide)
        (by decide) (by decide) (by decide) (by decide) (by decide)]
      simp [lookupField]
    constructor
    · simp only [AuditLogger.run_log, AuditLogger.log, chain_hashes, List.map_cons,
        if_true, List.cons.injEq]
      exact ⟨hhash, (ih (some (compute_hash digest st (build_entry ev)))).1⟩
    · simp only [AuditLogger.run_log, AuditLogger.log, chain_hashes, chain_last, if_true]
      exact (ih (some (compute_hash digest st (build_entry ev)))).2

theorem lookup_redactGo : ∀ (fs suf : JFields) (k : String),
    lookupField (redactGo fs suf) k =
      match lookupField fs k with
      | some v => some (if k = "account_number" then .s (redact_account_number (jvalStr v))
                        else if k = "details" then redactDetail v
                        else v)
      | none => lookupField suf k
  | .nil, suf, k => by simp [redactGo, lookupField]
  | .cons k2 v r, suf, k => by
    by_cases hk : k2 = k
    · subst hk
      simp [redactGo, lookupField]
    · simp [redactGo, lookupField, hk, lookup_redactGo r suf k]

theorem lookup_build_entry_account (ev : EventInput) (acct : String)
    (ha : ev.account_number = some acct) (hane : ¬ acct = "") :
    lookupField (build_entry ev) "account_number" = some (.s acct) := by
  simp [build_entry, lookup_append, lookupField, ha, opt_str_field, hane]

theorem lookup_build_entry_amount (ev : EventInput) (amt : ℚ)
    (ham : ev.amount = some amt) :
    lookupField (build_entry ev) "amount" = some (.q amt) := by
  simp [build_entry, lookup_append, lookupField, ham, opt_q_field,
    lookup_opt_str "account_number" ev.account_number "amount" (by decide),
    lookup_opt_str "symbol" ev.symbol "amount" (by decide)]

theorem lookup_entry2_account (ev : EventInput) (acct : String) (hc : Bool)
    (digest : String → String) (st : Option String)
    (ha : ev.account_number = some acct) (hane : ¬ acct = "") :
    lookupField (AuditLogger.log digest true hc st ev).1 "account_number" =
      some (.s acct) := by
  cases hc with
  | false => exact lookup_build_entry_account ev acct ha hane
  | true =>
    show lookupField ((build_entry ev).append _) "account_number" = _
    rw [lookup_append, lookup_build_entry_account ev acct ha hane]

theorem lookup_entry2_amount (ev : EventInput) (amt : ℚ) (hc : Bool)
    (digest : String → String) (st : Option String) (ham : ev.amount = some amt) :
    lookupField (AuditLogger.log digest true hc st ev).1 "amount" = some (.q amt) := by
  cases hc with
  | false => exact lookup_build_entry_amount ev amt ham
  | true =>
    show lookupField ((build_entry ev).append _) "amount" = _
    rw [lookup_append, lookup_build_entry_amount ev amt ham]

theorem lookup_entry2_display_none (ev : EventInput) (hc : Bool)
    (digest : String → String) (st : Option String) :
    lookupField (AuditLogger.log digest true hc st ev).1 "amount_display" = none := by
  have hb := lookup_build_entry_none ev "amount_display"
    (by decide) (by decide) (by decide) (by decide) (by decide) (by decide)
    (by decide) (by decide) (by decide) (by decide) (by decide)
  cases hc with
  | false => exact hb
  | true =>
    show lookupField ((build_entry ev).append _) "amount_display" = _
    rw [lookup_append, hb]
    simp [lookupField]

/-- C10: with `redact_sensitive` enabled, `AuditLogger.log` returns the
fully unredacted entry (raw account number and raw numeric amount) to its
caller, while the line written to the log file serializes the redacted
copy: its `account_number` is reduced to last-4-visible form, but its raw
numeric `amount` is still present — only an added `amount_display` sibling
field is redacted. -/
theorem c10_redaction (digest : String → String) (hc : Bool) (st : Option String)
    (ev : EventInput) (acct : String) (amt : ℚ)
    (ha : ev.account_number = some acct) (hane : acct ≠ "")
    (ham : ev.amount = some amt) :
    lookupField (AuditLogger.log digest true hc st ev).1 "account_number" = some (.s acct)
    ∧ lookupField (AuditLogger.log digest true hc st ev).1 "amount" = some (.q amt)
    ∧ (AuditLogger.log digest true hc st ev).2.1 =
        render (.obj (redact_entry (AuditLogger.log digest true hc st ev).1))
    ∧ lookupField (redact_entry (AuditLogger.log digest true hc st ev).1) "account_number"
        = some (.s (redact_account_number acct))
    ∧ lookupField (redact_entry (AuditLogger.log digest true hc st ev).1) "amount"
        = some (.q amt)
    ∧ lookupField (redact_entry (AuditLogger.log digest true hc st ev).1) "amount_display"
        = some (.s (redact_amount amt)) := by
  refine ⟨lookup_entry2_account ev acct hc digest st ha hane,
    lookup_entry2_amount ev amt hc digest st ham, rfl, ?_, ?_, ?_⟩
  · rw [redact_entry, lookup_redactGo,
      lookup_entry2_account ev acct hc digest st ha hane]
    simp [jvalStr]
  · rw [redact_entry, lookup_redactGo, lookup_entry2_amount ev amt hc digest st ham]
    simp
  · rw [redact_entry, lookup_redactGo, lookup_entry2_display_none ev hc digest st,
      amount_display_suffix, lookup_entry2_amount ev amt hc digest st ham]
    simp [lookupField]

/-- A concrete audit event for the C10 witness. -/
def c10ev : EventInput :=
  { timestamp := "2025-01-01T00:00:00+00:00", event_type := "trade_executed",
    success := true, account_number := some "123456789", amount := some (12345/100),
    pid := 7 }

/-- Witness for `c10_redaction` at a concrete event and identity digest. -/
theorem c10_witness :
    lookupField (AuditLogger.log (fun s => s) true true none c10ev).1 "account_number"
      = some (.s "123456789")
    ∧ lookupField (AuditLogger.log (fun s => s) true true none c10ev).1 "amount"
      = some (.q (12345/100))
    ∧ (AuditLogger.log (fun s => s) true true none c10ev).2.1 =
        render (.obj (redact_entry (AuditLogger.log (fun s => s) true true none c10ev).1))
    ∧ lookupField (redact_entry (AuditLogger.log (fun s => s) true true none c10ev).1)
        "account_number" = some (.s (redact_account_number "123456789"))
    ∧ lookupField (redact_entry (AuditLogger.log (fun s => s) true true none c10ev).1)
        "amount" = some (.q (12345/100))
    ∧ lookupField (redact_entry (AuditLogger.log (fun s => s) true true none c10ev).1)
        "amount_display" = some (.s (redact_amount (12345/100))) :=
  c10_redaction (fun s => s) true none c10ev "123456789" (12345/100) rfl (by decide) rfl

/-! ### utils/token_encryption.py

The Fernet primitive (`cryptography.fernet`) and `json.dumps`/`json.loads`
are external libraries; they enter the embedding as parameters, with their
documented round-trip contracts as hypotheses at the point of use.  UTF-8
encoding of the serialized text is the identity on the modelled strings. -/

/-- A Fernet instance: encryption is total, decryption returns `none` where
the library raises `InvalidToken`. -/
structure FernetM where
  enc : String → String
  dec : String → Option String

/-- `TokenEncryption.encrypt_tokens` (token_encryption.py 90-109):
serialize the token dict to JSON and encrypt.  Serialization of the
structured `JFields` model is total, so the `EncryptionError` path for
serialization failures does not arise. -/
def encrypt_tokens (f : FernetM) (dumps : JFields → String) (token_data : JFields) :
    String :=
  f.enc (dumps token_data)

/-- `TokenEncryption.decrypt_tokens` (token_encryption.py 111-138):
decrypt, then parse; `InvalidToken` and JSON-decode failures map to
distinct `TokenEncryptionError` messages. -/
def decrypt_tokens (f : FernetM) (loads : String → Option JFields)
    (encrypted_data : String) : Except String JFields :=
  match f.dec encrypted_data with
  | none => .error "Failed to decrypt tokens. The encryption key may be incorrect or the token file may be corrupted."
  | some decrypted =>
    match loads decrypted with
    | none => .error "Decrypted token data is not valid JSON"
    | some d => .ok d

/-- C7: for a fixed key (one Fernet instance), decrypting an encrypted
token dict returns the original dict, given the library round-trip
contracts of Fernet and of the JSON codec at the serialized value. -/
theorem c7_roundtrip (f : FernetM) (dumps : JFields → String)
    (loads : String → Option JFields) (d : JFields)
    (hfernet : f.dec (f.enc (dumps d)) = some (dumps d))
    (hjson : loads (dumps d) = some d) :
    decrypt_tokens f loads (encrypt_tokens f dumps d) = .ok d := by
  simp [decrypt_tokens, encrypt_tokens, hfernet, hjson]

/-- Witness for `c7_roundtrip` with a concrete codec and Fernet instance. -/
theorem c7_witness :
    decrypt_tokens ⟨id, some⟩ (fun _ => some JFields.nil)
      (encrypt_tokens ⟨id, some⟩ (fun fs => render (.obj fs)) JFields.nil) =
      .ok JFields.nil :=
  c7_roundtrip ⟨id, some⟩ (fun fs => render (.obj fs)) (fun _ => some JFields.nil)
    JFields.nil rfl rfl
